import Mathlib

/-!
Verification development for the stork schema-validated storage wrappers.

The embedding models `createAsyncStorage` (packages/zod-async-storage/src/AsyncStorage.ts)
and `createLocalStorage` (packages/zod-local-storage/src/LocalStorage.ts).
The external key-value store is modelled as an association list of entries
together with an optional fault: when the fault is set, every store primitive
fails by throwing that value, which models store-level failures such as
quota-exceeded.  Effects observable by the caller (removes issued against the
store, debug warnings, `onValidationError` invocations, callback invocations)
are recorded in explicit event logs threaded through every operation.
-/

namespace Stork

/-- A JavaScript runtime value, as produced by `JSON.parse` and consumed by
`JSON.stringify` and `schema.safeParse`. -/
inductive JSValue where
  | null
  | bool (b : Bool)
  | num (n : Int)
  | str (s : String)
  | arr (elems : List JSValue)
  | obj (fields : List (String × JSValue))
deriving Repr

/-- A JavaScript thrown value: either an `Error` instance carrying a message,
or any other value (JS code may `throw` non-`Error` values), carried by its
string form. -/
inductive JSErr where
  | error (msg : String)
  | raw (val : String)
deriving Repr, DecidableEq

/-- `toError` from AsyncStorage.ts line 23 and LocalStorage.ts line 14:
`cause instanceof Error ? cause : new Error(String(cause))`. -/
def toError : JSErr → JSErr
  | .error msg => .error msg
  | .raw val => .error val

/-- The `"clear" | "throw"` failure mode. -/
inductive FailureMode where
  | clear
  | «throw»
deriving Repr, DecidableEq

/-- The identity of an `onValidationError` callback function.  Invocations are
recorded as events, so a callback is represented by an opaque identifier. -/
abbrev Callback := Nat

/-- A zod schema, seen through `safeParse`: success returns the (possibly
coerced) data, failure returns `result.error` rendered by its `message`. -/
abbrev Schema := JSValue → Except String JSValue

/-- The schema map supplied at construction.  `schemas key = some s` models
`key in schemas` together with the subsequent truthiness check of
`schemas[key]` (both collapse into one lookup). -/
abbrev SchemaMap := String → Option Schema

/-- The external JSON codec (the host's `JSON` object).  `parse` failing
models `JSON.parse` throwing a `SyntaxError` with the given message;
`JSON.parse` throws only `SyntaxError`, so the `instanceof SyntaxError`
check in the source always succeeds on a parse failure. -/
structure Json where
  parse : String → Except String JSValue
  stringify : JSValue → String

/-- `GlobalOptions` from types.ts: all fields optional. -/
structure GlobalOptions where
  strict : Option Bool
  onFailure : Option FailureMode
  debug : Option Bool
  onValidationError : Option Callback

/-- `GetItemOptions = Pick<GlobalOptions, "onFailure" | "onValidationError">`. -/
structure GetItemOptions where
  onFailure : Option FailureMode
  onValidationError : Option Callback

/-- The message of the error thrown on a JSON parse failure:
`Invalid JSON for key "<key>": <message>`. -/
def invalidJsonMsg (key msg : String) : String :=
  "Invalid JSON for key \"" ++ key ++ "\": " ++ msg

/-- The message of the error thrown on a schema validation failure:
`Validation failed for key "<key>": <message>`. -/
def validationFailedMsg (key msg : String) : String :=
  "Validation failed for key \"" ++ key ++ "\": " ++ msg

/-- Look an entry up in the external store's entry list. -/
def lookupEntry : List (String × String) → String → Option String
  | [], _ => none
  | p :: rest, key => if p.1 = key then some p.2 else lookupEntry rest key

/-- Write an entry in the external store's entry list (replace or append). -/
def putEntry : List (String × String) → String → String → List (String × String)
  | [], key, value => [(key, value)]
  | p :: rest, key, value =>
    if p.1 = key then (key, value) :: rest else p :: putEntry rest key value

/-- Delete an entry from the external store's entry list. -/
def dropEntry (entries : List (String × String)) (key : String) : List (String × String) :=
  entries.filter (fun p => p.1 ≠ key)

/-- An invocation of an `onValidationError` callback: which callback ran and
the `(key, error, value)` arguments it received. -/
structure ValidationEvent where
  cb : Callback
  key : String
  errMsg : String
  value : JSValue
deriving Repr

/-- An invocation of an operation's optional completion callback.
`success r` models `callback?.(null)` (`r = none`) or `callback?.(null, x)`
(`r = some x`); `failure e` models `callback?.(e)`; the `Multi` forms model
the array-typed callbacks of the batch operations. -/
inductive CbEvent where
  | success (result : Option (Option JSValue))
  | failure (e : JSErr)
  | successMulti (results : List (String × Option JSValue))
  | failureMulti (es : List JSErr)
deriving Repr

/-- The mutable world: the external store's entries, an optional store fault
(when set, every store primitive throws that value), and the event logs. -/
structure World where
  store : List (String × String)
  fault : Option JSErr
  removes : List String
  warns : List String
  validationEvents : List ValidationEvent
  cbEvents : List CbEvent
deriving Repr

/-- The store's `getItem` primitive. -/
def World.storeGetItem (w : World) (key : String) : Except JSErr (Option String) :=
  match w.fault with
  | some e => .error e
  | none => .ok (lookupEntry w.store key)

/-- The store's `setItem` primitive. -/
def World.storeSetItem (w : World) (key value : String) : Except JSErr World :=
  match w.fault with
  | some e => .error e
  | none => .ok { w with store := putEntry w.store key value }

/-- The store's `removeItem` primitive; each successful call is recorded in
the `removes` log. -/
def World.storeRemoveItem (w : World) (key : String) : Except JSErr World :=
  match w.fault with
  | some e => .error e
  | none =>
    .ok { w with store := dropEntry w.store key, removes := w.removes ++ [key] }

/-- The store's `multiGet` primitive: one pair per requested key, in request
order (the batch is a single logical request against the store). -/
def World.storeMultiGet (w : World) (keys : List String) :
    Except JSErr (List (String × Option String)) :=
  match w.fault with
  | some e => .error e
  | none => .ok (keys.map (fun key => (key, lookupEntry w.store key)))

/-- The store's `multiSet` primitive. -/
def World.storeMultiSet (w : World) (pairs : List (String × String)) :
    Except JSErr World :=
  match w.fault with
  | some e => .error e
  | none =>
    .ok { w with store := pairs.foldl (fun st p => putEntry st p.1 p.2) w.store }

/-- The store's `mergeItem` primitive.  How the store merges an existing raw
value with the new one is the store's own (external) behaviour, supplied as
`mergeRaw`. -/
def World.storeMergeItem (w : World) (mergeRaw : Option String → String → String)
    (key value : String) : Except JSErr World :=
  match w.fault with
  | some e => .error e
  | none =>
    .ok { w with store := putEntry w.store key (mergeRaw (lookupEntry w.store key) value) }

/-- The store's `multiMerge` primitive. -/
def World.storeMultiMerge (w : World) (mergeRaw : Option String → String → String)
    (pairs : List (String × String)) : Except JSErr World :=
  match w.fault with
  | some e => .error e
  | none =>
    .ok { w with store :=
      pairs.foldl (fun st p => putEntry st p.1 (mergeRaw (lookupEntry st p.1) p.2)) w.store }

/-- `logClearedInvalidItem`: `if (debug) console.warn("Cleared invalid item", key)`.
The `warns` log records the keys warned about. -/
def World.logClearedInvalidItem (w : World) (debug : Bool) (key : String) : World :=
  if debug then { w with warns := w.warns ++ [key] } else w

/-- Record an invocation of an `onValidationError` callback. -/
def World.fireValidationError (w : World) (cb : Callback) (key errMsg : String)
    (value : JSValue) : World :=
  { w with validationEvents := w.validationEvents ++ [⟨cb, key, errMsg, value⟩] }

/-- Record an invocation of an operation's completion callback, when one was
supplied (`cb = true` models a supplied callback; `callback?.()` is a no-op
when none was supplied). -/
def World.fireCb (w : World) (cb : Bool) (event : CbEvent) : World :=
  if cb then { w with cbEvents := w.cbEvents ++ [event] } else w

/-- The destructuring default `onFailure = "clear"` of
`const { onFailure = "clear", debug = false, onValidationError } = globalOptions || {}`. -/
def resolvedOnFailure (globalOptions : Option GlobalOptions) : FailureMode :=
  (globalOptions.bind GlobalOptions.onFailure).getD .clear

/-- The destructuring default `debug = false`. -/
def resolvedDebug (globalOptions : Option GlobalOptions) : Bool :=
  (globalOptions.bind GlobalOptions.debug).getD false

/-- The destructured `onValidationError` (no default). -/
def resolvedOnValidationError (globalOptions : Option GlobalOptions) : Option Callback :=
  globalOptions.bind GlobalOptions.onValidationError

/-- `options?.onFailure ?? onFailure` — the effective failure mode of a single
read operation. -/
def effectiveFailureMode (globalOptions : Option GlobalOptions)
    (options : Option GetItemOptions) : FailureMode :=
  (options.bind GetItemOptions.onFailure).getD (resolvedOnFailure globalOptions)

/-- `options?.onValidationError ?? onValidationError` — the effective
validation-error callback of a single read operation. -/
def effectiveValidationCallback (globalOptions : Option GlobalOptions)
    (options : Option GetItemOptions) : Option Callback :=
  match options.bind GetItemOptions.onValidationError with
  | some cb => some cb
  | none => resolvedOnValidationError globalOptions

/-- `parseAndValidateValue` — the Validation/Recovery Engine, shared verbatim
(modulo `await`) by AsyncStorage.ts lines 26–71 and LocalStorage.ts lines
17–62.  Returns the typed value (`some data`), `null` (`none`), or throws. -/
def parseAndValidateValue (json : Json) (schemas : SchemaMap) (debug : Bool)
    (key storedValue : String) (failureMode : FailureMode)
    (validationErrorCallback : Option Callback) (w : World) :
    Except JSErr (Option JSValue) × World :=
  match schemas key with
  | some schema =>
    match json.parse storedValue with
    | .error msg =>
      -- `JSON.parse` throws only `SyntaxError`, so the source's
      -- `instanceof SyntaxError` test succeeds here.
      match failureMode with
      | .clear =>
        match w.storeRemoveItem key with
        | .error e => (.error e, w)
        | .ok w' => (.ok none, w'.logClearedInvalidItem debug key)
      | .«throw» => (.error (.error (invalidJsonMsg key msg)), w)
    | .ok parsedValue =>
      match schema parsedValue with
      | .ok data => (.ok (some data), w)
      | .error errMsg =>
        let w₁ :=
          match validationErrorCallback with
          | some cb => w.fireValidationError cb key errMsg parsedValue
          | none => w
        match failureMode with
        | .clear =>
          match w₁.storeRemoveItem key with
          | .error e => (.error e, w₁)
          | .ok w' => (.ok none, w'.logClearedInvalidItem debug key)
        | .«throw» => (.error (.error (validationFailedMsg key errMsg)), w₁)
  | none =>
    -- For keys without schemas, return the raw string value.
    (.ok (some (.str storedValue)), w)

/-- The `value as string` cast applied to schema-less keys on write: the type
contract guarantees the value is already a string there. -/
def JSValue.asString : JSValue → String
  | .str s => s
  | _ => ""

namespace AsyncStorage

/-- `getItem` from AsyncStorage.ts lines 74–96. -/
def getItem (json : Json) (schemas : SchemaMap) (globalOptions : Option GlobalOptions)
    (key : String) (options : Option GetItemOptions) (cb : Bool) (w : World) :
    Except JSErr (Option JSValue) × World :=
  match w.storeGetItem key with
  | .error e => (.error e, w.fireCb cb (.failure (toError e)))
  | .ok none => (.ok none, w.fireCb cb (.success (some none)))
  | .ok (some storedValue) =>
    match parseAndValidateValue json schemas (resolvedDebug globalOptions) key storedValue
        (effectiveFailureMode globalOptions options)
        (effectiveValidationCallback globalOptions options) w with
    | (.ok data, w') => (.ok data, w'.fireCb cb (.success (some data)))
    | (.error e, w') => (.error e, w'.fireCb cb (.failure (toError e)))

/-- `setItem` from AsyncStorage.ts lines 98–107. -/
def setItem (json : Json) (schemas : SchemaMap) (key : String) (value : JSValue)
    (cb : Bool) (w : World) : Except JSErr Unit × World :=
  let stringValue :=
    match schemas key with
    | some _ => json.stringify value
    | none => value.asString
  match w.storeSetItem key stringValue with
  | .error e => (.error e, w.fireCb cb (.failure (toError e)))
  | .ok w' => (.ok (), w'.fireCb cb (.success none))

/-- `removeItem` from AsyncStorage.ts lines 109–117. -/
def removeItem (key : String) (cb : Bool) (w : World) : Except JSErr Unit × World :=
  match w.storeRemoveItem key with
  | .error e => (.error e, w.fireCb cb (.failure (toError e)))
  | .ok w' => (.ok (), w'.fireCb cb (.success none))

/-- One step of the `results.map(async ([key, value], index) => ...)` body of
`multiGet` (AsyncStorage.ts lines 145–159): the result pair's key is
`keys[index]`, while parsing and validation use the key returned by the
store. -/
def multiGetItem (json : Json) (schemas : SchemaMap) (debug : Bool)
    (failureMode : FailureMode) (validationErrorCallback : Option Callback)
    (keys : List String) (index : Nat) (pair : String × Option String) (w : World) :
    Except JSErr (String × Option JSValue) × World :=
  match pair.2 with
  | none => (.ok (keys.getD index "", none), w)
  | some value =>
    match parseAndValidateValue json schemas debug pair.1 value failureMode
        validationErrorCallback w with
    | (.ok data, w') => (.ok (keys.getD index "", data), w')
    | (.error e, w') => (.error e, w')

/-- The mapping step of `multiGet` over the store's returned pairs, failing
on the first item whose processing throws (`Promise.all` rejection). -/
def multiGetLoop (json : Json) (schemas : SchemaMap) (debug : Bool)
    (failureMode : FailureMode) (validationErrorCallback : Option Callback)
    (keys : List String) :
    List (String × Option String) → Nat → World →
    Except JSErr (List (String × Option JSValue)) × World
  | [], _, w => (.ok [], w)
  | pair :: rest, index, w =>
    match multiGetItem json schemas debug failureMode validationErrorCallback keys index pair w with
    | (.error e, w') => (.error e, w')
    | (.ok entry, w') =>
      match multiGetLoop json schemas debug failureMode validationErrorCallback keys rest
          (index + 1) w' with
      | (.error e, w'') => (.error e, w'')
      | (.ok entries, w'') => (.ok (entry :: entries), w'')

/-- The mapping/validation step of `multiGet` applied to the pairs the store
returned (the per-item failure-mode resolution of lines 150–151 is hoisted:
it reads only the per-call options and the construction-time configuration,
so it yields the same values for every item). -/
def multiGetMapped (json : Json) (schemas : SchemaMap)
    (globalOptions : Option GlobalOptions) (keys : List String)
    (options : Option GetItemOptions) (results : List (String × Option String))
    (w : World) : Except JSErr (List (String × Option JSValue)) × World :=
  multiGetLoop json schemas (resolvedDebug globalOptions)
    (effectiveFailureMode globalOptions options)
    (effectiveValidationCallback globalOptions options) keys results 0 w

/-- `multiGet` from AsyncStorage.ts lines 140–168. -/
def multiGet (json : Json) (schemas : SchemaMap) (globalOptions : Option GlobalOptions)
    (keys : List String) (options : Option GetItemOptions) (cb : Bool) (w : World) :
    Except JSErr (List (String × Option JSValue)) × World :=
  match w.storeMultiGet keys with
  | .error e => (.error e, w.fireCb cb (.failureMulti [toError e]))
  | .ok results =>
    match multiGetMapped json schemas globalOptions keys options results w with
    | (.ok mapped, w') => (.ok mapped, w'.fireCb cb (.successMulti mapped))
    | (.error e, w') => (.error e, w'.fireCb cb (.failureMulti [toError e]))

/-- The per-pair serialization of `multiSet`/`multiMerge` (lines 172–175,
207–210). -/
def stringifyPair (json : Json) (schemas : SchemaMap) (pair : String × JSValue) :
    String × String :=
  match schemas pair.1 with
  | some _ => (pair.1, json.stringify pair.2)
  | none => (pair.1, pair.2.asString)

/-- `multiSet` from AsyncStorage.ts lines 170–183. -/
def multiSet (json : Json) (schemas : SchemaMap) (keyValuePairs : List (String × JSValue))
    (cb : Bool) (w : World) : Except JSErr Unit × World :=
  let stringifiedPairs := keyValuePairs.map (stringifyPair json schemas)
  match w.storeMultiSet stringifiedPairs with
  | .error e => (.error e, w.fireCb cb (.failureMulti [toError e]))
  | .ok w' => (.ok (), w'.fireCb cb (.success none))

/-- `mergeItem` from AsyncStorage.ts lines 195–204; the store's own merge
behaviour is the external `mergeRaw`. -/
def mergeItem (json : Json) (schemas : SchemaMap)
    (mergeRaw : Option String → String → String) (key : String) (value : JSValue)
    (cb : Bool) (w : World) : Except JSErr Unit × World :=
  let stringValue :=
    match schemas key with
    | some _ => json.stringify value
    | none => value.asString
  match w.storeMergeItem mergeRaw key stringValue with
  | .error e => (.error e, w.fireCb cb (.failure (toError e)))
  | .ok w' => (.ok (), w'.fireCb cb (.success none))

/-- `multiMerge` from AsyncStorage.ts lines 206–218. -/
def multiMerge (json : Json) (schemas : SchemaMap)
    (mergeRaw : Option String → String → String)
    (keyValuePairs : List (String × JSValue)) (cb : Bool) (w : World) :
    Except JSErr Unit × World :=
  let stringifiedPairs := keyValuePairs.map (stringifyPair json schemas)
  match w.storeMultiMerge mergeRaw stringifiedPairs with
  | .error e => (.error e, w.fireCb cb (.failureMulti [toError e]))
  | .ok w' => (.ok (), w'.fireCb cb (.success none))

end AsyncStorage

namespace LocalStorage

/-- `getItem` from LocalStorage.ts lines 65–78; its catch block rethrows
`toError(error)`, normalizing non-`Error` thrown values. -/
def getItem (json : Json) (schemas : SchemaMap) (globalOptions : Option GlobalOptions)
    (key : String) (options : Option GetItemOptions) (w : World) :
    Except JSErr (Option JSValue) × World :=
  match w.storeGetItem key with
  | .error e => (.error (toError e), w)
  | .ok none => (.ok none, w)
  | .ok (some storedValue) =>
    match parseAndValidateValue json schemas (resolvedDebug globalOptions) key storedValue
        (effectiveFailureMode globalOptions options)
        (effectiveValidationCallback globalOptions options) w with
    | (.ok data, w') => (.ok data, w')
    | (.error e, w') => (.error (toError e), w')

/-- `setItem` from LocalStorage.ts lines 80–87. -/
def setItem (json : Json) (schemas : SchemaMap) (key : String) (value : JSValue)
    (w : World) : Except JSErr Unit × World :=
  let stringValue :=
    match schemas key with
    | some _ => json.stringify value
    | none => value.asString
  match w.storeSetItem key stringValue with
  | .error e => (.error (toError e), w)
  | .ok w' => (.ok (), w')

end LocalStorage

/-- A miniature JSON codec used to instantiate the theorems on concrete
inputs: it understands the integer `1` and the boolean `true` and rejects
every other text as a syntax error. -/
def demoJson : Json where
  parse s :=
    if s = "1" then .ok (.num 1)
    else if s = "true" then .ok (.bool true)
    else .error "Unexpected token"
  stringify v :=
    match v with
    | .num n => if n = 1 then "1" else "0"
    | .bool b => if b then "true" else "false"
    | _ => "null"

/-- A schema accepting exactly numbers (returned unchanged), failing with a
zod-style message otherwise. -/
def numberSchema : Schema := fun v =>
  match v with
  | .num n => .ok (.num n)
  | _ => .error "Expected number"

/-- A demo registry binding the key `user` to `numberSchema`; every other key
is schema-less. -/
def demoSchemas : SchemaMap := fun key =>
  if key = "user" then some numberSchema else none

/-- A world holding the given entries and fault, with empty event logs. -/
def mkWorld (entries : List (String × String)) (fault : Option JSErr) : World :=
  ⟨entries, fault, [], [], [], []⟩

/-! ### Supporting lemmas -/

theorem lookup_put_self (entries : List (String × String)) (key value : String) :
    lookupEntry (putEntry entries key value) key = some value := by
  induction entries with
  | nil => simp [putEntry, lookupEntry]
  | cons p rest ih =>
    by_cases h : p.1 = key
    · simp [putEntry, h, lookupEntry]
    · simp [putEntry, h, lookupEntry, ih]

theorem lookup_drop_self (entries : List (String × String)) (key : String) :
    lookupEntry (dropEntry entries key) key = none := by
  induction entries with
  | nil => rfl
  | cons p rest ih =>
    by_cases h : p.1 = key
    · simpa [dropEntry, List.filter_cons, h] using ih
    · simpa [dropEntry, List.filter_cons, h, lookupEntry] using ih

@[simp] theorem fireCb_store (w : World) (cb : Bool) (e : CbEvent) :
    (w.fireCb cb e).store = w.store := by
  unfold World.fireCb; split <;> rfl

@[simp] theorem fireCb_fault (w : World) (cb : Bool) (e : CbEvent) :
    (w.fireCb cb e).fault = w.fault := by
  unfold World.fireCb; split <;> rfl

@[simp] theorem fireCb_removes (w : World) (cb : Bool) (e : CbEvent) :
    (w.fireCb cb e).removes = w.removes := by
  unfold World.fireCb; split <;> rfl

@[simp] theorem fireCb_warns (w : World) (cb : Bool) (e : CbEvent) :
    (w.fireCb cb e).warns = w.warns := by
  unfold World.fireCb; split <;> rfl

@[simp] theorem fireCb_validationEvents (w : World) (cb : Bool) (e : CbEvent) :
    (w.fireCb cb e).validationEvents = w.validationEvents := by
  unfold World.fireCb; split <;> rfl

@[simp] theorem fireCb_true_cbEvents (w : World) (e : CbEvent) :
    (w.fireCb true e).cbEvents = w.cbEvents ++ [e] := rfl

@[simp] theorem logClearedInvalidItem_store (w : World) (debug : Bool) (key : String) :
    (w.logClearedInvalidItem debug key).store = w.store := by
  unfold World.logClearedInvalidItem; split <;> rfl

@[simp] theorem logClearedInvalidItem_fault (w : World) (debug : Bool) (key : String) :
    (w.logClearedInvalidItem debug key).fault = w.fault := by
  unfold World.logClearedInvalidItem; split <;> rfl

@[simp] theorem logClearedInvalidItem_removes (w : World) (debug : Bool) (key : String) :
    (w.logClearedInvalidItem debug key).removes = w.removes := by
  unfold World.logClearedInvalidItem; split <;> rfl

@[simp] theorem logClearedInvalidItem_validationEvents (w : World) (debug : Bool) (key : String) :
    (w.logClearedInvalidItem debug key).validationEvents = w.validationEvents := by
  unfold World.logClearedInvalidItem; split <;> rfl

@[simp] theorem logClearedInvalidItem_cbEvents (w : World) (debug : Bool) (key : String) :
    (w.logClearedInvalidItem debug key).cbEvents = w.cbEvents := by
  unfold World.logClearedInvalidItem; split <;> rfl

@[simp] theorem fireValidationError_store (w : World) (cb : Callback) (key errMsg : String)
    (value : JSValue) : (w.fireValidationError cb key errMsg value).store = w.store := rfl

@[simp] theorem fireValidationError_fault (w : World) (cb : Callback) (key errMsg : String)
    (value : JSValue) : (w.fireValidationError cb key errMsg value).fault = w.fault := rfl

@[simp] theorem fireValidationError_removes (w : World) (cb : Callback) (key errMsg : String)
    (value : JSValue) : (w.fireValidationError cb key errMsg value).removes = w.removes := rfl

@[simp] theorem fireValidationError_warns (w : World) (cb : Callback) (key errMsg : String)
    (value : JSValue) : (w.fireValidationError cb key errMsg value).warns = w.warns := rfl

@[simp] theorem fireValidationError_cbEvents (w : World) (cb : Callback) (key errMsg : String)
    (value : JSValue) : (w.fireValidationError cb key errMsg value).cbEvents = w.cbEvents := rfl

@[simp] theorem fireValidationError_validationEvents (w : World) (cb : Callback)
    (key errMsg : String) (value : JSValue) :
    (w.fireValidationError cb key errMsg value).validationEvents =
      w.validationEvents ++ [⟨cb, key, errMsg, value⟩] := rfl

theorem parseAndValidateValue_fault (json : Json) (schemas : SchemaMap) (debug : Bool)
    (key storedValue : String) (failureMode : FailureMode) (vcb : Option Callback)
    (w : World) :
    (parseAndValidateValue json schemas debug key storedValue failureMode vcb w).2.fault =
      w.fault := by
  unfold parseAndValidateValue World.storeRemoveItem
  cases schemas key <;> cases hf : w.fault <;>
    cases json.parse storedValue <;> simp [hf]
  case some.none.error schema msg =>
    cases failureMode <;> simp [hf]
  case some.some.error schema e msg =>
    cases failureMode <;> simp [hf]
  case some.none.ok schema parsedValue =>
    cases schema parsedValue <;> cases vcb <;> cases failureMode <;> simp [hf]
  case some.some.ok schema e parsedValue =>
    cases schema parsedValue <;> cases vcb <;> cases failureMode <;> simp [hf]

theorem parseAndValidateValue_fst_congr (json : Json) (schemas : SchemaMap) (debug : Bool)
    (key storedValue : String) (failureMode : FailureMode) (vcb : Option Callback)
    {w w' : World} (hw : w.fault = none) (hw' : w'.fault = none) :
    (parseAndValidateValue json schemas debug key storedValue failureMode vcb w).1 =
      (parseAndValidateValue json schemas debug key storedValue failureMode vcb w').1 := by
  unfold parseAndValidateValue World.storeRemoveItem
  cases schemas key <;> cases json.parse storedValue <;> simp [hw, hw']
  case some.error schema msg =>
    cases failureMode <;> simp [hw, hw']
  case some.ok schema parsedValue =>
    cases schema parsedValue <;> cases vcb <;> cases failureMode <;> simp [hw, hw']

/-- **C4.** For any single read operation, the effective failure mode is the
per-operation `onFailure` override when supplied, else the global
configuration's `onFailure`, else `"clear"`, and the same precedence
independently determines the effective `onValidationError` callback; moreover
`getItem`'s behaviour is fully determined by the resolved configuration. -/
theorem c4_failure_mode_precedence :
    (∀ (g : Option GlobalOptions) (m : FailureMode) (c : Option Callback),
      effectiveFailureMode g (some ⟨some m, c⟩) = m) ∧
    (∀ (s : Option Bool) (m : FailureMode) (d : Option Bool) (c₀ c : Option Callback),
      effectiveFailureMode (some ⟨s, some m, d, c₀⟩) (some ⟨none, c⟩) = m) ∧
    (∀ (s : Option Bool) (m : FailureMode) (d : Option Bool) (c₀ : Option Callback),
      effectiveFailureMode (some ⟨s, some m, d, c₀⟩) none = m) ∧
    effectiveFailureMode none none = .clear ∧
    (∀ (s d : Option Bool) (c₀ : Option Callback),
      effectiveFailureMode (some ⟨s, none, d, c₀⟩) none = .clear) ∧
    (∀ (s d : Option Bool) (c₀ c : Option Callback),
      effectiveFailureMode (some ⟨s, none, d, c₀⟩) (some ⟨none, c⟩) = .clear) ∧
    (∀ (g : Option GlobalOptions) (m : Option FailureMode) (cbid : Callback),
      effectiveValidationCallback g (some ⟨m, some cbid⟩) = some cbid) ∧
    (∀ (s : Option Bool) (f : Option FailureMode) (d : Option Bool) (cbid : Callback)
        (m : Option FailureMode),
      effectiveValidationCallback (some ⟨s, f, d, some cbid⟩) (some ⟨m, none⟩) = some cbid) ∧
    (∀ (s : Option Bool) (f : Option FailureMode) (d : Option Bool) (cbid : Callback),
      effectiveValidationCallback (some ⟨s, f, d, some cbid⟩) none = some cbid) ∧
    effectiveValidationCallback none none = none ∧
    (∀ (json : Json) (schemas : SchemaMap) (g : Option GlobalOptions) (key : String)
        (options : Option GetItemOptions) (cb : Bool) (w : World),
      AsyncStorage.getItem json schemas g key options cb w =
        AsyncStorage.getItem json schemas
          (some ⟨none, some (effectiveFailureMode g options), some (resolvedDebug g),
            effectiveValidationCallback g options⟩)
          key none cb w) := by
  refine ⟨?_, ?_, ?_, rfl, ?_, ?_, ?_, ?_, ?_, rfl, ?_⟩
  · intro g m c
    rfl
  · intro s m d c₀ c
    rfl
  · intro s m d c₀
    rfl
  · intro s d c₀
    rfl
  · intro s d c₀ c
    rfl
  · intro g m cbid
    rfl
  · intro s f d cbid m
    rfl
  · intro s f d cbid
    rfl
  · intro json schemas g key options cb w
    unfold AsyncStorage.getItem
    have h₁ : effectiveFailureMode
        (some ⟨none, some (effectiveFailureMode g options), some (resolvedDebug g),
          effectiveValidationCallback g options⟩) none = effectiveFailureMode g options := rfl
    have h₂ : effectiveValidationCallback
        (some ⟨none, some (effectiveFailureMode g options), some (resolvedDebug g),
          effectiveValidationCallback g options⟩) none =
        effectiveValidationCallback g options := by
      unfold effectiveValidationCallback resolvedOnValidationError
      cases effectiveValidationCallback g options <;> rfl
    have h₃ : resolvedDebug
        (some ⟨none, some (effectiveFailureMode g options), some (resolvedDebug g),
          effectiveValidationCallback g options⟩) = resolvedDebug g := rfl
    rw [h₁, h₂, h₃]

/-- **C2.** For a schema-bound key `k` and a value `v` satisfying `k`'s schema
(validation succeeds and returns `v` itself), `getItem k` after `setItem k v`
returns a value deeply equal to `v`.  The model's store returns exactly the
string that was written, and the external JSON codec is assumed faithful on
`v` (`parse (stringify v) = v`). -/
theorem c2_roundtrip (json : Json) (schemas : SchemaMap)
    (globalOptions : Option GlobalOptions) (key : String) (schema : Schema)
    (v : JSValue) (options : Option GetItemOptions) (cb₁ cb₂ : Bool) (w : World)
    (hschema : schemas key = some schema)
    (hfault : w.fault = none)
    (hjson : json.parse (json.stringify v) = .ok v)
    (hvalid : schema v = .ok v) :
    (AsyncStorage.setItem json schemas key v cb₁ w).1 = .ok () ∧
    (AsyncStorage.getItem json schemas globalOptions key options cb₂
        (AsyncStorage.setItem json schemas key v cb₁ w).2).1 = .ok (some v) := by
  unfold AsyncStorage.setItem AsyncStorage.getItem World.storeSetItem World.storeGetItem
  simp only [hschema, hfault]
  refine ⟨by trivial, ?_⟩
  simp only [fireCb_store, fireCb_fault, lookup_put_self]
  unfold parseAndValidateValue
  simp only [hschema, hjson, hvalid]

/-- **C1.** For a schema-bound key whose stored value fails JSON parsing or
schema validation, `getItem` under failure mode `"clear"` issues a remove of
that key's entry against the external store and returns `null`; under
`"throw"` it fails with a descriptive error identifying the key and the
failure, and the stored entry is not removed. -/
theorem c1_getItem_corrupt_entry (json : Json) (schemas : SchemaMap)
    (globalOptions : Option GlobalOptions) (key raw : String) (schema : Schema)
    (cb : Bool) (w : World) (optsClear optsThrow : GetItemOptions)
    (hschema : schemas key = some schema)
    (hfault : w.fault = none)
    (hstored : lookupEntry w.store key = some raw)
    (hClear : optsClear.onFailure = some .clear)
    (hThrow : optsThrow.onFailure = some .«throw») :
    (∀ msg, json.parse raw = .error msg →
      ((AsyncStorage.getItem json schemas globalOptions key (some optsClear) cb w).1 =
          .ok none ∧
        (AsyncStorage.getItem json schemas globalOptions key (some optsClear) cb w).2.removes =
          w.removes ++ [key] ∧
        lookupEntry
          (AsyncStorage.getItem json schemas globalOptions key (some optsClear) cb w).2.store
          key = none) ∧
      ((AsyncStorage.getItem json schemas globalOptions key (some optsThrow) cb w).1 =
          .error (.error (invalidJsonMsg key msg)) ∧
        (AsyncStorage.getItem json schemas globalOptions key (some optsThrow) cb w).2.store =
          w.store ∧
        (AsyncStorage.getItem json schemas globalOptions key (some optsThrow) cb w).2.removes =
          w.removes)) ∧
    (∀ parsedValue errMsg, json.parse raw = .ok parsedValue →
      schema parsedValue = .error errMsg →
      ((AsyncStorage.getItem json schemas globalOptions key (some optsClear) cb w).1 =
          .ok none ∧
        (AsyncStorage.getItem json schemas globalOptions key (some optsClear) cb w).2.removes =
          w.removes ++ [key] ∧
        lookupEntry
          (AsyncStorage.getItem json schemas globalOptions key (some optsClear) cb w).2.store
          key = none) ∧
      ((AsyncStorage.getItem json schemas globalOptions key (some optsThrow) cb w).1 =
          .error (.error (validationFailedMsg key errMsg)) ∧
        (AsyncStorage.getItem json schemas globalOptions key (some optsThrow) cb w).2.store =
          w.store ∧
        (AsyncStorage.getItem json schemas globalOptions key (some optsThrow) cb w).2.removes =
          w.removes)) := by
  have hmodeC : effectiveFailureMode globalOptions (some optsClear) = .clear := by
    simp [effectiveFailureMode, hClear]
  have hmodeT : effectiveFailureMode globalOptions (some optsThrow) = .«throw» := by
    simp [effectiveFailureMode, hThrow]
  constructor
  · intro msg hparse
    unfold AsyncStorage.getItem World.storeGetItem parseAndValidateValue World.storeRemoveItem
    simp only [hfault, hstored, hschema, hparse, hmodeC, hmodeT]
    simp [hfault, lookup_drop_self]
  · intro parsedValue errMsg hparse hvalid
    unfold AsyncStorage.getItem World.storeGetItem parseAndValidateValue World.storeRemoveItem
    simp only [hfault, hstored, hschema, hparse, hvalid, hmodeC, hmodeT]
    cases effectiveValidationCallback globalOptions (some optsClear) <;>
      cases effectiveValidationCallback globalOptions (some optsThrow) <;>
        simp [hfault, lookup_drop_self]

/-- **C3.** For every `getItem` (and `multiGet`) call, the `onValidationError`
callback is invoked exactly when schema validation of the deserialized value
fails, and never when JSON deserialization of the stored string fails. -/
theorem c3_validation_callback_exclusivity (json : Json) (schemas : SchemaMap)
    (globalOptions : Option GlobalOptions) (key raw : String) (schema : Schema)
    (options : Option GetItemOptions) (cb : Bool) (w : World)
    (hschema : schemas key = some schema)
    (hfault : w.fault = none)
    (hstored : lookupEntry w.store key = some raw) :
    (∀ msg, json.parse raw = .error msg →
      (AsyncStorage.getItem json schemas globalOptions key options cb w).2.validationEvents =
        w.validationEvents) ∧
    (∀ parsedValue errMsg cbid, json.parse raw = .ok parsedValue →
      schema parsedValue = .error errMsg →
      effectiveValidationCallback globalOptions options = some cbid →
      (AsyncStorage.getItem json schemas globalOptions key options cb w).2.validationEvents =
        w.validationEvents ++ [⟨cbid, key, errMsg, parsedValue⟩]) ∧
    (∀ parsedValue errMsg, json.parse raw = .ok parsedValue →
      schema parsedValue = .error errMsg →
      effectiveValidationCallback globalOptions options = none →
      (AsyncStorage.getItem json schemas globalOptions key options cb w).2.validationEvents =
        w.validationEvents) ∧
    (∀ parsedValue data, json.parse raw = .ok parsedValue →
      schema parsedValue = .ok data →
      (AsyncStorage.getItem json schemas globalOptions key options cb w).2.validationEvents =
        w.validationEvents) ∧
    (∀ (keys : List String) (index : Nat) (fm : FailureMode) (vcb : Option Callback) msg,
      json.parse raw = .error msg →
      (AsyncStorage.multiGetItem json schemas (resolvedDebug globalOptions) fm vcb keys index
          (key, some raw) w).2.validationEvents = w.validationEvents) ∧
    (∀ (keys : List String) (index : Nat) (fm : FailureMode) (cbid : Callback)
        parsedValue errMsg,
      json.parse raw = .ok parsedValue → schema parsedValue = .error errMsg →
      (AsyncStorage.multiGetItem json schemas (resolvedDebug globalOptions) fm (some cbid)
          keys index (key, some raw) w).2.validationEvents =
        w.validationEvents ++ [⟨cbid, key, errMsg, parsedValue⟩]) := by
  refine ⟨?_, ?_, ?_, ?_, ?_, ?_⟩
  · intro msg hparse
    unfold AsyncStorage.getItem World.storeGetItem parseAndValidateValue World.storeRemoveItem
    simp only [hfault, hstored, hschema, hparse]
    cases effectiveFailureMode globalOptions options <;> simp [hfault]
  · intro parsedValue errMsg cbid hparse hvalid hcb
    unfold AsyncStorage.getItem World.storeGetItem parseAndValidateValue World.storeRemoveItem
    simp only [hfault, hstored, hschema, hparse, hvalid, hcb]
    cases effectiveFailureMode globalOptions options <;> simp [hfault]
  · intro parsedValue errMsg hparse hvalid hcb
    unfold AsyncStorage.getItem World.storeGetItem parseAndValidateValue World.storeRemoveItem
    simp only [hfault, hstored, hschema, hparse, hvalid, hcb]
    cases effectiveFailureMode globalOptions options <;> simp [hfault]
  · intro parsedValue data hparse hvalid
    unfold AsyncStorage.getItem World.storeGetItem parseAndValidateValue World.storeRemoveItem
    simp only [hfault, hstored, hschema, hparse, hvalid]
    simp [hfault]
  · intro keys index fm vcb msg hparse
    unfold AsyncStorage.multiGetItem parseAndValidateValue World.storeRemoveItem
    simp only [hschema, hparse]
    cases fm <;> cases vcb <;> simp [hfault]
  · intro keys index fm cbid parsedValue errMsg hparse hvalid
    unfold AsyncStorage.multiGetItem parseAndValidateValue World.storeRemoveItem
    simp only [hschema, hparse, hvalid]
    cases fm <;> simp [hfault]

/-- **C5.** For a key absent from the Schema Registry, `setItem` writes the
given string to the store unchanged and `getItem` returns the stored string
unchanged, with no JSON serialization, parsing, or validation performed in
either direction (the conclusions hold for every JSON codec and record no
validation or recovery effects). -/
theorem c5_unknown_key_passthrough (schemas : SchemaMap)
    (globalOptions : Option GlobalOptions) (key s : String)
    (options : Option GetItemOptions) (cb₁ cb₂ : Bool) (w : World)
    (hschema : schemas key = none) (hfault : w.fault = none) :
    (∀ json : Json,
      (AsyncStorage.setItem json schemas key (.str s) cb₁ w).1 = .ok () ∧
      (AsyncStorage.setItem json schemas key (.str s) cb₁ w).2.store =
        putEntry w.store key s ∧
      (AsyncStorage.setItem json schemas key (.str s) cb₁ w).2.validationEvents =
        w.validationEvents) ∧
    (∀ (json : Json) (stored : String), lookupEntry w.store key = some stored →
      (AsyncStorage.getItem json schemas globalOptions key options cb₂ w).1 =
        .ok (some (.str stored)) ∧
      (AsyncStorage.getItem json schemas globalOptions key options cb₂ w).2.store = w.store ∧
      (AsyncStorage.getItem json schemas globalOptions key options cb₂ w).2.removes =
        w.removes ∧
      (AsyncStorage.getItem json schemas globalOptions key options cb₂ w).2.validationEvents =
        w.validationEvents) ∧
    (∀ json : Json,
      (AsyncStorage.getItem json schemas globalOptions key options cb₂
          (AsyncStorage.setItem json schemas key (.str s) cb₁ w).2).1 =
        .ok (some (.str s))) := by
  refine ⟨?_, ?_, ?_⟩
  · intro json
    unfold AsyncStorage.setItem World.storeSetItem
    simp [hschema, hfault, JSValue.asString]
  · intro json stored hstored
    unfold AsyncStorage.getItem World.storeGetItem parseAndValidateValue
    simp [hschema, hfault, hstored]
  · intro json
    unfold AsyncStorage.setItem World.storeSetItem AsyncStorage.getItem World.storeGetItem
      parseAndValidateValue
    simp [hschema, hfault, JSValue.asString, lookup_put_self]

/-- **C7.** When the external store holds no entry for a key, `getItem`
returns `null` immediately without invoking the Validation/Recovery Engine;
consequently, under `"clear"` mode, reading the same corrupted entry twice
returns `null` both times without throwing, the second read seeing an
already-absent entry and issuing no further remove. -/
theorem c7_absent_key_null_and_idempotent_clear (json : Json) (schemas : SchemaMap)
    (globalOptions : Option GlobalOptions) (key : String)
    (options : Option GetItemOptions) (cb : Bool) (w : World)
    (hfault : w.fault = none) :
    (lookupEntry w.store key = none →
      (AsyncStorage.getItem json schemas globalOptions key options cb w).1 = .ok none ∧
      (AsyncStorage.getItem json schemas globalOptions key options cb w).2.store = w.store ∧
      (AsyncStorage.getItem json schemas globalOptions key options cb w).2.removes =
        w.removes ∧
      (AsyncStorage.getItem json schemas globalOptions key options cb w).2.validationEvents =
        w.validationEvents ∧
      (AsyncStorage.getItem json schemas globalOptions key options cb w).2.warns = w.warns) ∧
    (∀ raw msg (schema : Schema) (optsC : GetItemOptions),
      schemas key = some schema →
      lookupEntry w.store key = some raw →
      json.parse raw = .error msg →
      optsC.onFailure = some .clear →
      (AsyncStorage.getItem json schemas globalOptions key (some optsC) cb w).1 = .ok none ∧
      lookupEntry
        (AsyncStorage.getItem json schemas globalOptions key (some optsC) cb w).2.store key =
        none ∧
      (AsyncStorage.getItem json schemas globalOptions key (some optsC) cb
          (AsyncStorage.getItem json schemas globalOptions key (some optsC) cb w).2).1 =
        .ok none ∧
      (AsyncStorage.getItem json schemas globalOptions key (some optsC) cb
          (AsyncStorage.getItem json schemas globalOptions key (some optsC) cb w).2).2.removes =
        (AsyncStorage.getItem json schemas globalOptions key (some optsC) cb w).2.removes) := by
  constructor
  · intro hstored
    unfold AsyncStorage.getItem World.storeGetItem
    simp [hfault, hstored]
  · intro raw msg schema optsC hschema hstored hparse hmode
    have hmodeC : effectiveFailureMode globalOptions (some optsC) = .clear := by
      simp [effectiveFailureMode, hmode]
    unfold AsyncStorage.getItem World.storeGetItem parseAndValidateValue World.storeRemoveItem
    simp only [hfault, hstored, hschema, hparse, hmodeC]
    simp [hfault, lookup_drop_self]

theorem parseAndValidateValue_cbEvents (json : Json) (schemas : SchemaMap) (debug : Bool)
    (key storedValue : String) (failureMode : FailureMode) (vcb : Option Callback)
    (w : World) :
    (parseAndValidateValue json schemas debug key storedValue failureMode vcb w).2.cbEvents =
      w.cbEvents := by
  unfold parseAndValidateValue World.storeRemoveItem
  cases schemas key <;> cases hf : w.fault <;>
    cases json.parse storedValue <;> simp [hf]
  case some.none.error schema msg =>
    cases failureMode <;> simp [hf]
  case some.some.error schema e msg =>
    cases failureMode <;> simp [hf]
  case some.none.ok schema parsedValue =>
    cases schema parsedValue <;> cases vcb <;> cases failureMode <;> simp [hf]
  case some.some.ok schema e parsedValue =>
    cases schema parsedValue <;> cases vcb <;> cases failureMode <;> simp [hf]

theorem multiGetItem_cbEvents (json : Json) (schemas : SchemaMap) (debug : Bool)
    (fm : FailureMode) (vcb : Option Callback) (keys : List String) (index : Nat)
    (pair : String × Option String) (w : World) :
    (AsyncStorage.multiGetItem json schemas debug fm vcb keys index pair w).2.cbEvents =
      w.cbEvents := by
  unfold AsyncStorage.multiGetItem
  rcases pair with ⟨pkey, pval⟩
  cases pval with
  | none => rfl
  | some value =>
    have h := parseAndValidateValue_cbEvents json schemas debug pkey value fm vcb w
    rcases hres : parseAndValidateValue json schemas debug pkey value fm vcb w with ⟨r, w'⟩
    rw [hres] at h
    cases r <;> simpa [hres] using h

theorem multiGetItem_fault (json : Json) (schemas : SchemaMap) (debug : Bool)
    (fm : FailureMode) (vcb : Option Callback) (keys : List String) (index : Nat)
    (pair : String × Option String) (w : World) :
    (AsyncStorage.multiGetItem json schemas debug fm vcb keys index pair w).2.fault =
      w.fault := by
  unfold AsyncStorage.multiGetItem
  rcases pair with ⟨pkey, pval⟩
  cases pval with
  | none => rfl
  | some value =>
    have h := parseAndValidateValue_fault json schemas debug pkey value fm vcb w
    rcases hres : parseAndValidateValue json schemas debug pkey value fm vcb w with ⟨r, w'⟩
    rw [hres] at h
    cases r <;> simpa [hres] using h

theorem multiGetLoop_cbEvents (json : Json) (schemas : SchemaMap) (debug : Bool)
    (fm : FailureMode) (vcb : Option Callback) (keys : List String) :
    ∀ (results : List (String × Option String)) (index : Nat) (w : World),
      (AsyncStorage.multiGetLoop json schemas debug fm vcb keys results index w).2.cbEvents =
        w.cbEvents := by
  intro results
  induction results with
  | nil => intro index w; rfl
  | cons pair rest ih =>
    intro index w
    unfold AsyncStorage.multiGetLoop
    have hitem := multiGetItem_cbEvents json schemas debug fm vcb keys index pair w
    rcases hres : AsyncStorage.multiGetItem json schemas debug fm vcb keys index pair w
      with ⟨r, w₁⟩
    rw [hres] at hitem
    cases r with
    | error e => simpa [hres] using hitem
    | ok entry =>
      have hitem' : w₁.cbEvents = w.cbEvents := hitem
      have hloop := ih (index + 1) w₁
      rcases hres₂ : AsyncStorage.multiGetLoop json schemas debug fm vcb keys rest
        (index + 1) w₁ with ⟨r₂, w₂⟩
      rw [hres₂] at hloop
      have hloop' : w₂.cbEvents = w₁.cbEvents := hloop
      cases r₂ <;> simp [hres, hres₂, hloop', hitem']

/-- Counterexample to **C8** as stated: the synchronous (localStorage)
facade's catch block rethrows `toError(error)`, so a non-`Error` value thrown
by the store is not propagated as the exact value the store threw. -/
theorem c8_counterexample :
    (LocalStorage.getItem demoJson demoSchemas none "user" none
        (mkWorld [] (some (.raw "SecurityError")))).1 =
      .error (.error "SecurityError") ∧
    JSErr.error "SecurityError" ≠ JSErr.raw "SecurityError" :=
  ⟨rfl, by decide⟩

/-- **C8 (amended).** Store-level failures are propagated to the caller
without retry and without translation into the Engine's error taxonomy: every
asynchronous operation rethrows the exact value the store threw, while the
synchronous (localStorage) operations rethrow `toError` of it — the same
value whenever the store threw an `Error` instance. -/
theorem c8_store_failure_propagation (json : Json) (schemas : SchemaMap)
    (globalOptions : Option GlobalOptions) (key : String) (keys : List String)
    (value : JSValue) (pairs : List (String × JSValue))
    (mergeRaw : Option String → String → String)
    (options : Option GetItemOptions) (cb : Bool) (w : World) (e : JSErr)
    (hfault : w.fault = some e) :
    (AsyncStorage.getItem json schemas globalOptions key options cb w).1 = .error e ∧
    (AsyncStorage.setItem json schemas key value cb w).1 = .error e ∧
    (AsyncStorage.removeItem key cb w).1 = .error e ∧
    (AsyncStorage.multiGet json schemas globalOptions keys options cb w).1 = .error e ∧
    (AsyncStorage.multiSet json schemas pairs cb w).1 = .error e ∧
    (AsyncStorage.mergeItem json schemas mergeRaw key value cb w).1 = .error e ∧
    (AsyncStorage.multiMerge json schemas mergeRaw pairs cb w).1 = .error e ∧
    (LocalStorage.getItem json schemas globalOptions key options w).1 =
      .error (toError e) ∧
    (LocalStorage.setItem json schemas key value w).1 = .error (toError e) ∧
    (∀ m, toError (.error m) = .error m) := by
  unfold AsyncStorage.getItem AsyncStorage.setItem AsyncStorage.removeItem
    AsyncStorage.multiGet AsyncStorage.multiSet AsyncStorage.mergeItem AsyncStorage.multiMerge
    LocalStorage.getItem LocalStorage.setItem World.storeGetItem World.storeSetItem
    World.storeRemoveItem World.storeMultiGet World.storeMultiSet World.storeMergeItem
    World.storeMultiMerge
  simp [hfault, toError]

/-- Counterexample to **C9** as stated: on failure the callback receives
`toError(error)` while the operation rethrows the original value, so when the
store throws a non-`Error` value the callback does not receive the same error
the operation throws. -/
theorem c9_counterexample :
    (AsyncStorage.getItem demoJson demoSchemas none "user" none true
        (mkWorld [] (some (.raw "quota exceeded")))).1 =
      .error (.raw "quota exceeded") ∧
    (AsyncStorage.getItem demoJson demoSchemas none "user" none true
        (mkWorld [] (some (.raw "quota exceeded")))).2.cbEvents =
      [.failure (.error "quota exceeded")] ∧
    JSErr.raw "quota exceeded" ≠ JSErr.error "quota exceeded" :=
  ⟨rfl, rfl, by decide⟩

/-- **C9 (amended).** An operation's optional callback is invoked with
`(error, result)` semantics mirroring the outcome: on success it receives the
value the operation returns; on failure it receives `toError` of the thrown
value — the thrown error itself whenever that value is an `Error` instance
(batch operations receive it wrapped in a one-element array). -/
theorem c9_callback_outcome_mirror (json : Json) (schemas : SchemaMap)
    (globalOptions : Option GlobalOptions) (key : String) (keys : List String)
    (value : JSValue) (options : Option GetItemOptions) (w : World) :
    ((AsyncStorage.getItem json schemas globalOptions key options true w).2.cbEvents =
      w.cbEvents ++
        [match (AsyncStorage.getItem json schemas globalOptions key options true w).1 with
          | .ok v => .success (some v)
          | .error e => .failure (toError e)]) ∧
    ((AsyncStorage.setItem json schemas key value true w).2.cbEvents =
      w.cbEvents ++
        [match (AsyncStorage.setItem json schemas key value true w).1 with
          | .ok _ => .success none
          | .error e => .failure (toError e)]) ∧
    ((AsyncStorage.multiGet json schemas globalOptions keys options true w).2.cbEvents =
      w.cbEvents ++
        [match (AsyncStorage.multiGet json schemas globalOptions keys options true w).1 with
          | .ok mapped => .successMulti mapped
          | .error e => .failureMulti [toError e]]) ∧
    (∀ m, toError (.error m) = .error m) := by
  refine ⟨?_, ?_, ?_, fun m => rfl⟩
  · unfold AsyncStorage.getItem World.storeGetItem
    cases hf : w.fault with
    | some e => simp
    | none =>
      cases lookupEntry w.store key with
      | none => simp
      | some stored =>
        have h := parseAndValidateValue_cbEvents json schemas (resolvedDebug globalOptions)
          key stored (effectiveFailureMode globalOptions options)
          (effectiveValidationCallback globalOptions options) w
        rcases hres : parseAndValidateValue json schemas (resolvedDebug globalOptions)
          key stored (effectiveFailureMode globalOptions options)
          (effectiveValidationCallback globalOptions options) w with ⟨r, w'⟩
        rw [hres] at h
        have h' : w'.cbEvents = w.cbEvents := h
        cases r <;> simp [hres, h']
  · unfold AsyncStorage.setItem World.storeSetItem
    cases hf : w.fault <;> simp
  · unfold AsyncStorage.multiGet World.storeMultiGet
    cases hf : w.fault with
    | some e => simp
    | none =>
      have h : ∀ res : List (String × Option String),
          (AsyncStorage.multiGetMapped json schemas globalOptions keys options
            res w).2.cbEvents = w.cbEvents :=
        fun res => multiGetLoop_cbEvents json schemas (resolvedDebug globalOptions)
          (effectiveFailureMode globalOptions options)
          (effectiveValidationCallback globalOptions options) keys res 0 w
      rcases hres : AsyncStorage.multiGetMapped json schemas globalOptions keys options
        (keys.map (fun key => (key, lookupEntry w.store key))) w with ⟨r, w'⟩
      have h' : w'.cbEvents = w.cbEvents := by
        have h₂ := h (keys.map (fun key => (key, lookupEntry w.store key)))
        rw [hres] at h₂
        exact h₂
      cases r <;> simp [hres, h']

/-- **C10.** `setItem` (and `multiSet`/`mergeItem`/`multiMerge`) performs no
schema validation on write: the value is JSON-serialized and written to the
store unconditionally, even when it does not satisfy the key's schema, with
no error, callback invocation, or recovery action; the mismatch is detected
only on a subsequent read. -/
theorem c10_no_validation_on_write (json : Json) (schemas : SchemaMap) (key : String)
    (schema : Schema) (value : JSValue) (cb : Bool) (w : World)
    (mergeRaw : Option String → String → String) (pairs : List (String × JSValue))
    (globalOptions : Option GlobalOptions) (cbid : Callback)
    (hschema : schemas key = some schema) (hfault : w.fault = none) :
    ((AsyncStorage.setItem json schemas key value cb w).1 = .ok () ∧
      (AsyncStorage.setItem json schemas key value cb w).2.store =
        putEntry w.store key (json.stringify value) ∧
      (AsyncStorage.setItem json schemas key value cb w).2.validationEvents =
        w.validationEvents ∧
      (AsyncStorage.setItem json schemas key value cb w).2.removes = w.removes ∧
      (AsyncStorage.setItem json schemas key value cb w).2.warns = w.warns) ∧
    ((AsyncStorage.multiSet json schemas pairs cb w).1 = .ok () ∧
      (AsyncStorage.multiSet json schemas pairs cb w).2.validationEvents =
        w.validationEvents ∧
      (AsyncStorage.multiSet json schemas pairs cb w).2.removes = w.removes) ∧
    ((AsyncStorage.mergeItem json schemas mergeRaw key value cb w).1 = .ok () ∧
      (AsyncStorage.mergeItem json schemas mergeRaw key value cb w).2.store =
        putEntry w.store key (mergeRaw (lookupEntry w.store key) (json.stringify value)) ∧
      (AsyncStorage.mergeItem json schemas mergeRaw key value cb w).2.validationEvents =
        w.validationEvents) ∧
    ((AsyncStorage.multiMerge json schemas mergeRaw pairs cb w).1 = .ok () ∧
      (AsyncStorage.multiMerge json schemas mergeRaw pairs cb w).2.validationEvents =
        w.validationEvents) ∧
    (∀ errMsg, schema value = .error errMsg →
      json.parse (json.stringify value) = .ok value →
      (AsyncStorage.getItem json schemas globalOptions key
          (some ⟨some .clear, some cbid⟩) cb
          (AsyncStorage.setItem json schemas key value cb w).2).1 = .ok none ∧
      (AsyncStorage.getItem json schemas globalOptions key
          (some ⟨some .clear, some cbid⟩) cb
          (AsyncStorage.setItem json schemas key value cb w).2).2.validationEvents =
        w.validationEvents ++ [⟨cbid, key, errMsg, value⟩]) := by
  refine ⟨?_, ?_, ?_, ?_, ?_⟩
  · unfold AsyncStorage.setItem World.storeSetItem
    simp [hschema, hfault]
  · unfold AsyncStorage.multiSet World.storeMultiSet
    simp [hfault]
  · unfold AsyncStorage.mergeItem World.storeMergeItem
    simp [hschema, hfault]
  · unfold AsyncStorage.multiMerge World.storeMultiMerge
    simp [hfault]
  · intro errMsg hvalid hparse
    unfold AsyncStorage.setItem World.storeSetItem AsyncStorage.getItem World.storeGetItem
      parseAndValidateValue World.storeRemoveItem
    simp only [hschema, hfault]
    simp only [fireCb_store, fireCb_fault, fireCb_validationEvents, lookup_put_self]
    have hmodeC : effectiveFailureMode globalOptions
        (some (⟨some .clear, some cbid⟩ : GetItemOptions)) = .clear := rfl
    have hcb : effectiveValidationCallback globalOptions
        (some (⟨some .clear, some cbid⟩ : GetItemOptions)) = some cbid := rfl
    simp only [hparse, hvalid, hmodeC, hcb]
    simp [hfault]

theorem getD_lt (l : List String) (i : Nat) (h : i < l.length) (d : String) :
    l.getD i d = l.get ⟨i, h⟩ := by
  simp [List.getD, List.getElem?_eq_getElem h]

theorem multiGetItem_fst_congr (json : Json) (schemas : SchemaMap) (debug : Bool)
    (fm : FailureMode) (vcb : Option Callback) (keys : List String) (index : Nat)
    (pair : String × Option String) {w w' : World}
    (hw : w.fault = none) (hw' : w'.fault = none) :
    (AsyncStorage.multiGetItem json schemas debug fm vcb keys index pair w).1 =
      (AsyncStorage.multiGetItem json schemas debug fm vcb keys index pair w').1 := by
  unfold AsyncStorage.multiGetItem
  rcases pair with ⟨pkey, pval⟩
  cases pval with
  | none => rfl
  | some value =>
    have h := parseAndValidateValue_fst_congr json schemas debug pkey value fm vcb hw hw'
    rcases h₁ : parseAndValidateValue json schemas debug pkey value fm vcb w with ⟨r₁, w₁⟩
    rcases h₂ : parseAndValidateValue json schemas debug pkey value fm vcb w' with ⟨r₂, w₂⟩
    rw [h₁, h₂] at h
    have h' : r₁ = r₂ := h
    subst h'
    cases r₁ <;> simp [h₁, h₂]

theorem multiGetItem_ok_fst (json : Json) (schemas : SchemaMap) (debug : Bool)
    (fm : FailureMode) (vcb : Option Callback) (keys : List String) (index : Nat)
    (pair : String × Option String) (w : World) (entry : String × Option JSValue)
    (h : (AsyncStorage.multiGetItem json schemas debug fm vcb keys index pair w).1 =
      .ok entry) :
    entry.1 = keys.getD index "" := by
  unfold AsyncStorage.multiGetItem at h
  rcases pair with ⟨pkey, pval⟩
  cases pval with
  | none =>
    have h' : (Except.ok ((keys.getD index "", none) : String × Option JSValue) :
        Except JSErr _) = .ok entry := h
    have h'' := Except.ok.inj h'
    rw [← h'']
  | some value =>
    dsimp only at h
    rcases hres : parseAndValidateValue json schemas debug pkey value fm vcb w with ⟨r, w'⟩
    rw [hres] at h
    cases r with
    | ok data =>
      have h' : (Except.ok ((keys.getD index "", data) : String × Option JSValue) :
          Except JSErr _) = .ok entry := h
      have h'' := Except.ok.inj h'
      rw [← h'']
    | error e => simp at h

theorem multiGetLoop_ok (json : Json) (schemas : SchemaMap) (debug : Bool)
    (fm : FailureMode) (vcb : Option Callback) (keys : List String) :
    ∀ (results : List (String × Option String)) (index : Nat) (w : World),
      w.fault = none →
      ∀ (mapped : List (String × Option JSValue)) (w' : World),
        AsyncStorage.multiGetLoop json schemas debug fm vcb keys results index w =
          (.ok mapped, w') →
        mapped.length = results.length ∧
        ∀ i (hi : i < results.length), ∃ hm : i < mapped.length,
          (AsyncStorage.multiGetItem json schemas debug fm vcb keys (index + i)
            (results.get ⟨i, hi⟩) w).1 = .ok (mapped.get ⟨i, hm⟩) := by
  intro results
  induction results with
  | nil =>
    intro index w hw mapped w' h
    have h' : (Except.ok ([] : List (String × Option JSValue)) : Except JSErr _) =
        .ok mapped := congrArg Prod.fst h
    have h'' := Except.ok.inj h'
    subst h''
    exact ⟨rfl, fun i hi => absurd hi (Nat.not_lt_zero i)⟩
  | cons pair rest ih =>
    intro index w hw mapped w' h
    unfold AsyncStorage.multiGetLoop at h
    have hfitem := multiGetItem_fault json schemas debug fm vcb keys index pair w
    rcases hres : AsyncStorage.multiGetItem json schemas debug fm vcb keys index pair w
      with ⟨r₁, w₁⟩
    rw [hres] at h hfitem
    have hw₁ : w₁.fault = none := by
      have h₂ : w₁.fault = w.fault := hfitem
      rw [h₂, hw]
    cases r₁ with
    | error e => exact absurd (congrArg Prod.fst h) (by simp)
    | ok entry =>
      dsimp only at h
      rcases hres₂ : AsyncStorage.multiGetLoop json schemas debug fm vcb keys rest
        (index + 1) w₁ with ⟨r₂, w₂⟩
      rw [hres₂] at h
      cases r₂ with
      | error e => exact absurd (congrArg Prod.fst h) (by simp)
      | ok entries =>
        have hm : entry :: entries = mapped := Except.ok.inj (congrArg Prod.fst h)
        subst hm
        obtain ⟨hlen, hfact⟩ := ih (index + 1) w₁ hw₁ entries w₂ hres₂
        constructor
        · simpa using hlen
        · intro i hi
          cases i with
          | zero =>
            refine ⟨Nat.succ_pos _, ?_⟩
            have hv : (AsyncStorage.multiGetItem json schemas debug fm vcb keys index
                pair w).1 = .ok entry := by rw [hres]
            simpa using hv
          | succ i' =>
            have hi' : i' < rest.length := Nat.lt_of_succ_lt_succ (by simpa using hi)
            obtain ⟨hm', hfact'⟩ := hfact i' hi'
            refine ⟨Nat.succ_lt_succ hm', ?_⟩
            have harith : index + (i' + 1) = (index + 1) + i' := by omega
            rw [harith]
            exact (multiGetItem_fst_congr json schemas debug fm vcb keys ((index + 1) + i')
              (rest.get ⟨i', hi'⟩) hw hw₁).trans hfact'

theorem multiGetLoop_error (json : Json) (schemas : SchemaMap) (debug : Bool)
    (fm : FailureMode) (vcb : Option Callback) (keys : List String) :
    ∀ (results : List (String × Option String)) (index : Nat) (w : World),
      w.fault = none →
      ∀ (e : JSErr) (w' : World),
        AsyncStorage.multiGetLoop json schemas debug fm vcb keys results index w =
          (.error e, w') →
        ∃ j, ∃ hj : j < results.length,
          (AsyncStorage.multiGetItem json schemas debug fm vcb keys (index + j)
            (results.get ⟨j, hj⟩) w).1 = .error e ∧
          ∀ i (hi : i < results.length), i < j →
            ∃ entry, (AsyncStorage.multiGetItem json schemas debug fm vcb keys (index + i)
              (results.get ⟨i, hi⟩) w).1 = .ok entry := by
  intro results
  induction results with
  | nil =>
    intro index w hw e w' h
    exact absurd (congrArg Prod.fst h) (by simp [AsyncStorage.multiGetLoop])
  | cons pair rest ih =>
    intro index w hw e w' h
    unfold AsyncStorage.multiGetLoop at h
    have hfitem := multiGetItem_fault json schemas debug fm vcb keys index pair w
    rcases hres : AsyncStorage.multiGetItem json schemas debug fm vcb keys index pair w
      with ⟨r₁, w₁⟩
    rw [hres] at h hfitem
    have hw₁ : w₁.fault = none := by
      have h₂ : w₁.fault = w.fault := hfitem
      rw [h₂, hw]
    cases r₁ with
    | error e₁ =>
      have he : e₁ = e := by simpa using congrArg Prod.fst h
      subst he
      refine ⟨0, Nat.succ_pos _, ?_, ?_⟩
      · have hv : (AsyncStorage.multiGetItem json schemas debug fm vcb keys index pair w).1 =
            .error e₁ := by rw [hres]
        simpa using hv
      · intro i hi hlt
        exact absurd hlt (Nat.not_lt_zero i)
    | ok entry =>
      dsimp only at h
      rcases hres₂ : AsyncStorage.multiGetLoop json schemas debug fm vcb keys rest
        (index + 1) w₁ with ⟨r₂, w₂⟩
      rw [hres₂] at h
      cases r₂ with
      | ok entries => exact absurd (congrArg Prod.fst h) (by simp)
      | error e₂ =>
        have he : e₂ = e := by simpa using congrArg Prod.fst h
        subst he
        obtain ⟨j, hj, hfail, hbefore⟩ := ih (index + 1) w₁ hw₁ e₂ w₂ hres₂
        refine ⟨j + 1, Nat.succ_lt_succ hj, ?_, ?_⟩
        · have harith : index + (j + 1) = (index + 1) + j := by omega
          rw [harith]
          exact (multiGetItem_fst_congr json schemas debug fm vcb keys ((index + 1) + j)
            (rest.get ⟨j, hj⟩) hw hw₁).trans hfail
        · intro i hi hlt
          cases i with
          | zero =>
            refine ⟨entry, ?_⟩
            have hv : (AsyncStorage.multiGetItem json schemas debug fm vcb keys index
                pair w).1 = .ok entry := by rw [hres]
            simpa using hv
          | succ i' =>
            have hi' : i' < rest.length := Nat.lt_of_succ_lt_succ (by simpa using hi)
            have hlt' : i' < j := Nat.lt_of_succ_lt_succ hlt
            obtain ⟨entry', hfact'⟩ := hbefore i' hi' hlt'
            refine ⟨entry', ?_⟩
            have harith : index + (i' + 1) = (index + 1) + i' := by omega
            rw [harith]
            exact (multiGetItem_fst_congr json schemas debug fm vcb keys ((index + 1) + i')
              (rest.get ⟨i', hi'⟩) hw hw₁).trans hfact'

/-- **C6.** For every list of input keys, the mapping step of `multiGet`
returns exactly one result pair per input key, with keys in the same order as
the input key list, no matter in which order the external store's batch
primitive returned its pairs (the store response `results` is arbitrary);
each pair is produced by processing the corresponding store pair
independently, and under a failing mode the whole batch fails with the first
item failure. -/
theorem c6_multiGet_input_order (json : Json) (schemas : SchemaMap)
    (globalOptions : Option GlobalOptions) (keys : List String)
    (options : Option GetItemOptions) (results : List (String × Option String)) (w : World)
    (hlen : results.length = keys.length) (hfault : w.fault = none) :
    (∀ (mapped : List (String × Option JSValue)) (w' : World),
      AsyncStorage.multiGetMapped json schemas globalOptions keys options results w =
        (.ok mapped, w') →
      mapped.length = keys.length ∧
      mapped.map Prod.fst = keys ∧
      (∀ i (hi : i < results.length), ∃ hm : i < mapped.length,
        (AsyncStorage.multiGetItem json schemas (resolvedDebug globalOptions)
            (effectiveFailureMode globalOptions options)
            (effectiveValidationCallback globalOptions options) keys i
            (results.get ⟨i, hi⟩) w).1 = .ok (mapped.get ⟨i, hm⟩))) ∧
    (∀ (e : JSErr) (w' : World),
      AsyncStorage.multiGetMapped json schemas globalOptions keys options results w =
        (.error e, w') →
      ∃ j, ∃ hj : j < results.length,
        (AsyncStorage.multiGetItem json schemas (resolvedDebug globalOptions)
            (effectiveFailureMode globalOptions options)
            (effectiveValidationCallback globalOptions options) keys j
            (results.get ⟨j, hj⟩) w).1 = .error e ∧
        ∀ i (hi : i < results.length), i < j →
          ∃ entry, (AsyncStorage.multiGetItem json schemas (resolvedDebug globalOptions)
              (effectiveFailureMode globalOptions options)
              (effectiveValidationCallback globalOptions options) keys i
              (results.get ⟨i, hi⟩) w).1 = .ok entry) := by
  constructor
  · intro mapped w' h
    obtain ⟨hlen', hfact⟩ := multiGetLoop_ok json schemas (resolvedDebug globalOptions)
      (effectiveFailureMode globalOptions options)
      (effectiveValidationCallback globalOptions options) keys results 0 w hfault mapped w' h
    have hlenk : mapped.length = keys.length := hlen'.trans hlen
    refine ⟨hlenk, ?_, ?_⟩
    · apply List.ext_get
      · simpa using hlenk
      · intro i h₁ h₂
        have hi : i < results.length := by
          rw [hlen]
          simpa [hlenk] using h₁
        obtain ⟨hm, hfact'⟩ := hfact i hi
        rw [Nat.zero_add] at hfact'
        have hkey := multiGetItem_ok_fst json schemas (resolvedDebug globalOptions)
          (effectiveFailureMode globalOptions options)
          (effectiveValidationCallback globalOptions options) keys i
          (results.get ⟨i, hi⟩) w (mapped.get ⟨i, hm⟩) hfact'
        simp only [List.get_eq_getElem, List.getElem_map]
        simp only [List.get_eq_getElem] at hkey
        rw [hkey]
        exact (getD_lt keys i h₂ "").trans (by simp)
    · intro i hi
      obtain ⟨hm, hfact'⟩ := hfact i hi
      rw [Nat.zero_add] at hfact'
      exact ⟨hm, hfact'⟩
  · intro e w' h
    obtain ⟨j, hj, hfail, hbefore⟩ := multiGetLoop_error json schemas
      (resolvedDebug globalOptions) (effectiveFailureMode globalOptions options)
      (effectiveValidationCallback globalOptions options) keys results 0 w hfault e w' h
    rw [Nat.zero_add] at hfail
    refine ⟨j, hj, hfail, ?_⟩
    intro i hi hlt
    obtain ⟨entry, hfact'⟩ := hbefore i hi hlt
    rw [Nat.zero_add] at hfact'
    exact ⟨entry, hfact'⟩

/-! ### Concrete witnesses -/

theorem c1_witness :
    demoSchemas "user" = some numberSchema ∧
    (AsyncStorage.getItem demoJson demoSchemas none "user"
        (some ⟨some .clear, none⟩) false (mkWorld [("user", "bad")] none)).1 = .ok none ∧
    (AsyncStorage.getItem demoJson demoSchemas none "user"
        (some ⟨some .«throw», none⟩) false (mkWorld [("user", "bad")] none)).1 =
      .error (.error (invalidJsonMsg "user" "Unexpected token")) :=
  ⟨rfl,
    ((c1_getItem_corrupt_entry demoJson demoSchemas none "user" "bad" numberSchema false
      (mkWorld [("user", "bad")] none) ⟨some .clear, none⟩ ⟨some .«throw», none⟩
      rfl rfl rfl rfl rfl).1 "Unexpected token" rfl).1.1,
    ((c1_getItem_corrupt_entry demoJson demoSchemas none "user" "bad" numberSchema false
      (mkWorld [("user", "bad")] none) ⟨some .clear, none⟩ ⟨some .«throw», none⟩
      rfl rfl rfl rfl rfl).1 "Unexpected token" rfl).2.1⟩

theorem c2_witness :
    demoJson.parse (demoJson.stringify (.num 1)) = .ok (.num 1) ∧
    (AsyncStorage.getItem demoJson demoSchemas none "user" none false
        (AsyncStorage.setItem demoJson demoSchemas "user" (.num 1) false
          (mkWorld [] none)).2).1 = .ok (some (.num 1)) :=
  ⟨rfl,
    (c2_roundtrip demoJson demoSchemas none "user" numberSchema (.num 1) none false false
      (mkWorld [] none) rfl rfl rfl rfl).2⟩

theorem c3_witness :
    numberSchema (.bool true) = .error "Expected number" ∧
    (AsyncStorage.getItem demoJson demoSchemas none "user"
        (some ⟨some .«throw», some 7⟩) false
        (mkWorld [("user", "true")] none)).2.validationEvents =
      [⟨7, "user", "Expected number", .bool true⟩] :=
  ⟨rfl, by
    have h := (c3_validation_callback_exclusivity demoJson demoSchemas none "user" "true"
      numberSchema (some ⟨some .«throw», some 7⟩) false (mkWorld [("user", "true")] none)
      rfl rfl rfl).2.1 (.bool true) "Expected number" 7 rfl rfl rfl
    simpa using h⟩

theorem c5_witness :
    demoSchemas "token" = none ∧
    (AsyncStorage.getItem demoJson demoSchemas none "token" none false
        (AsyncStorage.setItem demoJson demoSchemas "token" (.str "abc123") false
          (mkWorld [] none)).2).1 = .ok (some (.str "abc123")) :=
  ⟨rfl,
    (c5_unknown_key_passthrough demoSchemas none "token" "abc123" none false false
      (mkWorld [] none) rfl rfl).2.2 demoJson⟩

theorem c6_witness :
    ([("user", some "1"), ("settings", some "bad")] :
        List (String × Option String)).length =
      (["user", "settings"] : List String).length ∧
    AsyncStorage.multiGetMapped demoJson demoSchemas none ["user", "settings"] none
        [("user", some "1"), ("settings", some "bad")] (mkWorld [] none) =
      (.ok [("user", some (JSValue.num 1)), ("settings", some (JSValue.str "bad"))],
        mkWorld [] none) ∧
    ([("user", some (JSValue.num 1)),
        ("settings", some (JSValue.str "bad"))].map Prod.fst : List String) =
      ["user", "settings"] :=
  ⟨rfl, rfl,
    ((c6_multiGet_input_order demoJson demoSchemas none ["user", "settings"] none
      [("user", some "1"), ("settings", some "bad")] (mkWorld [] none) rfl rfl).1
      [("user", some (JSValue.num 1)), ("settings", some (JSValue.str "bad"))]
      (mkWorld [] none) rfl).2.1⟩

theorem c7_witness :
    demoSchemas "user" = some numberSchema ∧
    (AsyncStorage.getItem demoJson demoSchemas none "user" (some ⟨some .clear, none⟩) false
        (AsyncStorage.getItem demoJson demoSchemas none "user" (some ⟨some .clear, none⟩)
          false (mkWorld [("user", "bad")] none)).2).1 = .ok none :=
  ⟨rfl,
    ((c7_absent_key_null_and_idempotent_clear demoJson demoSchemas none "user"
      (some ⟨some .clear, none⟩) false (mkWorld [("user", "bad")] none) rfl).2
      "bad" "Unexpected token" numberSchema ⟨some .clear, none⟩ rfl rfl rfl rfl).2.2.1⟩

theorem c8_witness :
    (mkWorld [] (some (.error "quota exceeded"))).fault =
      some (.error "quota exceeded") ∧
    (AsyncStorage.getItem demoJson demoSchemas none "user" none false
        (mkWorld [] (some (.error "quota exceeded")))).1 =
      .error (.error "quota exceeded") :=
  ⟨rfl,
    (c8_store_failure_propagation demoJson demoSchemas none "user" [] (.num 1) []
      (fun _ s => s) none false (mkWorld [] (some (.error "quota exceeded")))
      (.error "quota exceeded") rfl).1⟩

theorem c10_witness :
    numberSchema (.bool true) = .error "Expected number" ∧
    (AsyncStorage.setItem demoJson demoSchemas "user" (.bool true) false
        (mkWorld [] none)).1 = .ok () ∧
    (AsyncStorage.getItem demoJson demoSchemas none "user" (some ⟨some .clear, some 5⟩)
        false
        (AsyncStorage.setItem demoJson demoSchemas "user" (.bool true) false
          (mkWorld [] none)).2).2.validationEvents =
      [⟨5, "user", "Expected number", .bool true⟩] :=
  ⟨rfl,
    (c10_no_validation_on_write demoJson demoSchemas "user" numberSchema (.bool true) false
      (mkWorld [] none) (fun _ s => s) [] none 5 rfl rfl).1.1,
    by
      have h := (c10_no_validation_on_write demoJson demoSchemas "user" numberSchema
        (.bool true) false (mkWorld [] none) (fun _ s => s) [] none 5 rfl
        rfl).2.2.2.2 "Expected number" rfl rfl
      simpa using h.2⟩

end Stork
